import Mathlib

/-!
Verification of the connectplus backend core against its specification.

The definitions below are a shallow embedding of the Python sources:
  - src/core/rate_limit.py        (InMemoryRateLimiter.check)
  - src/api/routers/chat.py       (chat_send, chat_history, helpers)
  - src/api/routers/orders.py     (create_order, update_order_status)
  - src/api/routers/tickets.py    (update_ticket_status)

Modelling conventions:
  - MongoDB ObjectIds are modelled as `Nat` drawn from a monotonically
    increasing per-state counter (`nextId`); this matches the data-model
    invariant that message ids are monotonically increasing and usable
    as pagination cursors.
  - Timestamps are `Int` (Python `time.time()` / `datetime.now()`).
  - JSON values decoded from the AI engine response are modelled by `JVal`
    (no floats appear in any claim).
  - `HTTPException` raising is modelled with `Except Err`; the spec's
    abstract error taxonomy is the inductive `Err`.  Both raised transport
    exceptions and explicit 502 responses during the AI call are the spec's
    single abstract `UpstreamError`.
-/

/-- Abstract error taxonomy of spec section 7, plus `validationError` for
a pydantic response-model ValidationError raised while constructing the
response (surfaced as HTTP 500; outside the spec's named taxonomy). -/
inductive Err
  | rateLimited
  | upstreamError
  | invalidInput
  | notFound
  | forbidden
  | validationError
deriving Repr, DecidableEq

/-- JSON values as decoded by `resp.json()` (floats do not occur in any claim). -/
inductive JVal
  | null
  | bool (b : Bool)
  | int (n : Int)
  | str (s : String)
  | arr (xs : List JVal)
  | obj (kvs : List (String × JVal))
deriving Repr

/-- Key lookup in a decoded JSON object (Python dict access / `in`);
Python dict keys are unique, so first-match lookup is faithful. -/
def jLookup : List (String × JVal) → String → Option JVal
  | [], _ => none
  | (k, v) :: kvs, key => if k = key then some v else jLookup kvs key

/-- `data.get(key)` on a decoded JSON value (only objects have keys). -/
def jGet (v : JVal) (key : String) : Option JVal :=
  match v with
  | .obj kvs => jLookup kvs key
  | _ => none

mutual

/-- Python `repr()` of a decoded JSON value.  String escaping of quote and
backslash characters inside string contents is not modelled (no claim
depends on it). -/
def pyRepr : JVal → String
  | .null => "None"
  | .bool true => "True"
  | .bool false => "False"
  | .int n => toString n
  | .str s => "\x27" ++ s ++ "\x27"
  | .arr xs => "[" ++ pyReprList xs ++ "]"
  | .obj kvs => "\x7b" ++ pyReprObj kvs ++ "\x7d"

/-- Comma-separated `repr` of list elements. -/
def pyReprList : List JVal → String
  | [] => ""
  | [x] => pyRepr x
  | x :: y :: xs => pyRepr x ++ ", " ++ pyReprList (y :: xs)

/-- Comma-separated `repr` of dict items. -/
def pyReprObj : List (String × JVal) → String
  | [] => ""
  | [(k, v)] => "\x27" ++ k ++ "\x27: " ++ pyRepr v
  | (k, v) :: y :: xs => "\x27" ++ k ++ "\x27: " ++ pyRepr v ++ ", " ++ pyReprObj (y :: xs)

end

/-- Python `str()` of a decoded JSON value: identity on strings, `repr`
otherwise (e.g. `str(None) = "None"`, `str(5) = "5"`). -/
def pyStr (v : JVal) : String :=
  match v with
  | .str s => s
  | _ => pyRepr v

/-- Whether a decoded JSON value is an object (a Python dict). -/
def JVal.isObj : JVal → Bool
  | .obj _ => true
  | _ => false

/-- Python truthiness of a decoded JSON value (`if x:` / `x or y`). -/
def pyFalsy : JVal → Bool
  | .null => true
  | .bool b => !b
  | .int n => n == 0
  | .str s => s == ""
  | .arr xs => xs.isEmpty
  | .obj kvs => kvs.isEmpty

/-! ### Rate limiter — src/core/rate_limit.py -/

/-- The eviction loop of `InMemoryRateLimiter.check`:
`while q and (now - q[0]) > window_seconds: q.popleft()`. -/
def rlEvict (window now : Int) : List Int → List Int
  | [] => []
  | t :: ts => if now - t > window then rlEvict window now ts else t :: ts

/-- `InMemoryRateLimiter.check` (src/core/rate_limit.py lines 29-42):
evict expired events, raise 429 when `len(q) >= limit` (error value is the
queue after eviction), otherwise append the current timestamp. -/
def rlCheck (limit : Nat) (window now : Int) (q : List Int) :
    Except (List Int) (List Int) :=
  let q2 := rlEvict window now q
  if limit ≤ q2.length then .error q2 else .ok (q2 ++ [now])

/-- Queue state after a `check` call, whether or not it raised. -/
def rlPost (limit : Nat) (window now : Int) (q : List Int) : List Int :=
  match rlCheck limit window now q with
  | .error q2 => q2
  | .ok q2 => q2

/-- A sequence of `check` calls at the given times, threading the queue. -/
def rlRun (limit : Nat) (window : Int) : List Int → List Int → List Int
  | [], q => q
  | t :: ts, q => rlRun limit window ts (rlPost limit window t q)

/-! ### Chat data model — src/api/routers/chat.py -/

/-- A `conversations` document. -/
structure Conversation where
  id : Nat
  user_id : String
  started_at : Int
  last_message_at : Int
deriving Repr, DecidableEq

/-- A `messages` document.  The seven stored fields; `payload` is the
optional structured payload dict. -/
structure Message where
  id : Nat
  conversation_id : Nat
  sender : String
  text : Option String
  payload : Option JVal
  created_at : Int
deriving Repr

/-- Chat-relevant portion of the document store, plus the id counter that
models monotonically increasing ObjectId generation. -/
structure ChatState where
  conversations : List Conversation
  messages : List Message
  nextId : Nat
deriving Repr

/-- `update_one` on a collection: apply `f` to the first document matching
`p` (MongoDB updates at most one document). -/
def updateFirst (p : α → Bool) (f : α → α) : List α → List α
  | [] => []
  | x :: xs => if p x then f x :: xs else x :: updateFirst p f xs

/-- One step of selecting the conversation with maximal `last_message_at`
(the effect of `sort=[("last_message_at", -1)]` on `find_one`): keep the
stored-earlier conversation on ties. -/
def keepLater (acc : Option Conversation) (c : Conversation) : Option Conversation :=
  match acc with
  | none => some c
  | some b => if b.last_message_at < c.last_message_at then some c else some b

/-- `db.conversations.find_one({"user_id": uid}, sort=[("last_message_at", -1)])`:
a conversation of the user with maximal `last_message_at`. -/
def activeConversation (convs : List Conversation) (uid : String) : Option Conversation :=
  (convs.filter (fun c => c.user_id == uid)).foldl keepLater none

/-- `_get_or_create_conversation` (chat.py lines 25-31). -/
def getOrCreateConversation (st : ChatState) (uid : String) (ts : Int) :
    Conversation × ChatState :=
  match activeConversation st.conversations uid with
  | some c => (c, st)
  | none =>
    let c : Conversation := ⟨st.nextId, uid, ts, ts⟩
    (c, { st with conversations := st.conversations ++ [c], nextId := st.nextId + 1 })

/-- `_store_message` (chat.py lines 34-46): insert the message document and
advance the conversation's `last_message_at`. -/
def storeMessage (st : ChatState) (convId : Nat) (sender : String)
    (text : Option String) (payload : Option JVal) (ts : Int) :
    Message × ChatState :=
  let m : Message := ⟨st.nextId, convId, sender, text, payload, ts⟩
  ( m
  , { st with
        messages := st.messages ++ [m]
        conversations :=
          updateFirst (fun c => c.id == convId)
            (fun c => { c with last_message_at := ts }) st.conversations
        nextId := st.nextId + 1 } )

/-- Outcome of the HTTP round trip to the AI engine, as observed by
`_call_ai_engine`: a raised transport/timeout exception, or a response with
a status code and a body (`none` models a body `resp.json()` cannot parse). -/
inductive AIOutcome
  | transportError
  | response (status : Nat) (body : Option JVal)
deriving Repr

/-- `_call_ai_engine` (chat.py lines 49-62).  A raised transport exception,
a status `>= 400`, a non-JSON body, a non-dict body, or a dict without a
`"reply"` key all abort the request; the spec's taxonomy names every such
failure `UpstreamError`. -/
def call_ai_engine (ai : AIOutcome) : Except Err JVal :=
  match ai with
  | .transportError => .error .upstreamError
  | .response status body =>
    if 400 ≤ status then .error .upstreamError
    else
      match body with
      | none => .error .upstreamError
      | some data =>
        match data with
        | .obj kvs =>
          if (jLookup kvs "reply").isSome then .ok (.obj kvs)
          else .error .upstreamError
        | _ => .error .upstreamError

/-- `ai_data.get("suggested_actions") or []` followed by the
isinstance-list check (chat.py lines 86-88): the normalized
suggested-actions list sent onward to the response model. -/
def suggestedActionsOf (data : JVal) : List JVal :=
  let sa0 : JVal :=
    match jGet data "suggested_actions" with
    | none => .arr []
    | some v => if pyFalsy v then .arr [] else v
  match sa0 with
  | .arr xs => xs
  | _ => []

/-- The response body of a successful `chat_send` (`ChatSendOut`).
Pydantic types `suggested_actions` as `List[Dict[str, Any]]`; the
element constraint is enforced at construction inside `chat_send`, where
`ChatSendOut(...)` raises a ValidationError on a non-dict element, so a
constructed `SendOut` only ever holds object elements. -/
structure SendOut where
  reply : String
  suggested_actions : List JVal
  conversation_id : Nat
  message_id : Nat
  reply_message_id : Nat
deriving Repr

/-- Result of one `chat_send` request: its outcome, the limiter queue for
the principal afterwards, and the document store afterwards. -/
structure SendResult where
  outcome : Except Err SendOut
  limiterQ : List Int
  state : ChatState
deriving Repr

/-- `chat_send` (chat.py lines 72-104).  `q`/`nowLim` are the limiter queue
for `uid` and the `time.time()` value; `tConv`, `tUser`, `tAi` the
`now_utc()` values of the three store steps; `ai` the outcome of the
external AI round trip.  The final `ChatSendOut(...)` construction (lines
98-104) raises a pydantic ValidationError — after both messages were
persisted — when `suggested_actions` holds a non-dict element. -/
def chat_send (limit : Nat) (window : Int) (q : List Int) (nowLim : Int)
    (st : ChatState) (uid : String) (message : String) (context : Option JVal)
    (ai : AIOutcome) (tConv tUser tAi : Int) : SendResult :=
  match rlCheck limit window nowLim q with
  | .error q2 => ⟨.error .rateLimited, q2, st⟩
  | .ok q2 =>
    let gc := getOrCreateConversation st uid tConv
    let conv := gc.1
    let st1 := gc.2
    let userPayload : Option JVal :=
      match context with
      | some ctx =>
        if pyFalsy ctx then none else some (.obj [("context", ctx)])
      | none => none
    let sm := storeMessage st1 conv.id "user" (some message) userPayload tUser
    let umsg := sm.1
    let st2 := sm.2
    match call_ai_engine ai with
    | .error e => ⟨.error e, q2, st2⟩
    | .ok data =>
      let reply_text := pyStr ((jGet data "reply").getD (.str ""))
      let suggested_actions : List JVal := suggestedActionsOf data
      let aiPayload : Option JVal :=
        if suggested_actions.isEmpty then none
        else some (.obj [("suggested_actions", .arr suggested_actions)])
      let sm2 := storeMessage st2 conv.id "ai" (some reply_text) aiPayload tAi
      if suggested_actions.all JVal.isObj then
        ⟨.ok ⟨reply_text, suggested_actions, conv.id, umsg.id, sm2.1.id⟩, q2, sm2.2⟩
      else
        ⟨.error .validationError, q2, sm2.2⟩

/-- Descending insertion by message id, modelling `sort("_id", -1)`. -/
def insertDescById (m : Message) : List Message → List Message
  | [] => [m]
  | x :: xs => if x.id ≤ m.id then m :: x :: xs else x :: insertDescById m xs

/-- Sort messages by id descending (the `_id` index order MongoDB returns
for `sort("_id", -1)`). -/
def sortDescById : List Message → List Message
  | [] => []
  | x :: xs => insertDescById x (sortDescById xs)

/-- The response of `chat_history`; `conversation_id = none` models the
empty-string conversation id returned when the user has no conversation.
The route serialises each message into `ChatMessageOut`, a field-for-field
projection, so the page is modelled by the message documents themselves. -/
structure HistoryOut where
  conversation_id : Option Nat
  messages : List Message
  next_cursor : Option Nat
deriving Repr

/-- The filter of the history query: messages of the active conversation,
restricted to ids strictly below the cursor when one is given. -/
def historyFilter (convId : Nat) (cursor : Option Nat) (m : Message) : Bool :=
  m.conversation_id == convId &&
    (match cursor with
     | some c => decide (m.id < c)
     | none => true)

/-- `chat_history` (chat.py lines 114-149): resolve the most recently
active conversation (none gives an empty page), fetch up to `limit`
messages before the cursor in descending id order, reverse to
chronological, and set `next_cursor` to the oldest id iff the page is
full. -/
def chat_history (st : ChatState) (uid : String) (limit : Nat)
    (cursor : Option Nat) : HistoryOut :=
  match activeConversation st.conversations uid with
  | none => ⟨none, [], none⟩
  | some conv =>
    let docs :=
      ((sortDescById (st.messages.filter (historyFilter conv.id cursor))).take
        limit).reverse
    let next_cursor : Option Nat :=
      match docs with
      | [] => none
      | d :: _ => if docs.length = limit then some d.id else none
    ⟨some conv.id, docs, next_cursor⟩

/-! ### Orders — src/api/routers/orders.py -/

/-- A `plans` document (fields used by order creation). -/
structure Plan where
  id : Nat
  price : Int
  status : String
deriving Repr, DecidableEq

/-- An `engineers` document (fields used by assignment). -/
structure Engineer where
  id : Nat
  areas : List String
  skills : List String
  workload : Nat
  status : String
  updated_at : Int
deriving Repr, DecidableEq

/-- One entry of an order's timeline; the document keys are
`status`, `ts`, `by`. -/
structure TimelineEntry where
  status : String
  ts : Int
  actor : String
deriving Repr, DecidableEq

/-- An `orders` document.  `address` is opaque PII carried unchanged. -/
structure Order where
  id : Nat
  user_id : String
  plan_id : Nat
  address : String
  pincode : String
  price : Int
  status : String
  slot : String
  assigned_engineer_id : Option Nat
  timeline : List TimelineEntry
  created_at : Int
  updated_at : Int
deriving Repr, DecidableEq

/-- Order-relevant portion of the document store plus the id counter. -/
structure OrdersState where
  plans : List Plan
  engineers : List Engineer
  orders : List Order
  nextId : Nat
deriving Repr, DecidableEq

/-- The filter `{"status": "ACTIVE", "areas": pincode, "skills": "install"}`. -/
def engineerMatches (pincode : String) (e : Engineer) : Bool :=
  e.status == "ACTIVE" && e.areas.contains pincode && e.skills.contains "install"

/-- One step of selecting the minimum-workload engineer (the effect of
`sort=[("workload", 1)]` on `find_one`): keep the stored-earlier engineer
on ties. -/
def pickMinWorkload (acc : Option Engineer) (e : Engineer) : Option Engineer :=
  match acc with
  | none => some e
  | some b => if e.workload < b.workload then some e else some b

/-- `_pick_engineer_for_area` (orders.py lines 18-23):
`find_one` with sort `workload` ascending, i.e. a matching engineer with
minimal workload (ties kept at the earliest stored one). -/
def pick_engineer_for_area (engineers : List Engineer) (pincode : String) :
    Option Engineer :=
  (engineers.filter (engineerMatches pincode)).foldl pickMinWorkload none

/-- The `$inc workload / $set updated_at` applied to the picked engineer. -/
def bumpWorkload (ts : Int) (e : Engineer) : Engineer :=
  { e with workload := e.workload + 1, updated_at := ts }

/-- `create_order` (orders.py lines 33-66): reject a missing or inactive
plan, pick an engineer, insert the order document with a snapshot price,
status `scheduled` and a one-entry timeline, then increment the picked
engineer's workload if any. -/
def create_order (st : OrdersState) (uid : String) (planId : Nat)
    (address pincode slot : String) (ts : Int) :
    Except Err (Order × OrdersState) :=
  match st.plans.find? (fun p => p.id == planId && p.status == "ACTIVE") with
  | none => .error .invalidInput
  | some plan =>
    let eng := pick_engineer_for_area st.engineers pincode
    let aeid : Option Nat := eng.map Engineer.id
    let o : Order :=
      { id := st.nextId
        user_id := uid
        plan_id := planId
        address := address
        pincode := pincode
        price := plan.price
        status := "scheduled"
        slot := slot
        assigned_engineer_id := aeid
        timeline := [⟨"scheduled", ts, uid⟩]
        created_at := ts
        updated_at := ts }
    let engineers :=
      match aeid with
      | some eid =>
        updateFirst (fun e => e.id == eid) (bumpWorkload ts) st.engineers
      | none => st.engineers
    .ok (o, { st with
                orders := st.orders ++ [o]
                engineers := engineers
                nextId := st.nextId + 1 })

/-- The staff roles list `["admin", "agent", "engineer"]` used by
`require_roles` and the inline staff checks. -/
def staffRoles : List String := ["admin", "agent", "engineer"]

/-- `any(r in user.roles for r in required)` with the staff role list. -/
def isStaff (roles : List String) : Bool :=
  staffRoles.any (fun r => roles.contains r)

/-- The order status enumeration accepted by `update_order_status`. -/
def orderStatusAllowed : List String :=
  ["scheduled", "in_progress", "completed", "cancelled"]

/-- The `$set status/updated_at` + `$push timeline` update of
`update_order_status`. -/
def orderStatusUpd (newStatus : String) (ts : Int) (o : Order) : Order :=
  { o with
      status := newStatus
      updated_at := ts
      timeline := o.timeline ++ [⟨newStatus, ts, "staff"⟩] }

/-- `update_order_status` (orders.py lines 117-138).  The `require_roles`
dependency rejects non-staff callers before the handler runs; the handler
rejects unknown labels, then `find_one_and_update` either returns the
updated document or reports the order missing. -/
def update_order_status (roles : List String) (orderId : Nat)
    (newStatus : String) (ts : Int) (st : OrdersState) :
    Except Err (Order × OrdersState) :=
  if ¬ isStaff roles then .error .forbidden
  else if ¬ orderStatusAllowed.contains newStatus then .error .invalidInput
  else
    match st.orders.find? (fun o => o.id == orderId) with
    | none => .error .notFound
    | some o =>
      .ok ( orderStatusUpd newStatus ts o
          , { st with
                orders :=
                  updateFirst (fun x => x.id == orderId)
                    (orderStatusUpd newStatus ts) st.orders } )

/-- One status-update request against the orders store. -/
structure OrderUpdateReq where
  roles : List String
  orderId : Nat
  newStatus : String
  ts : Int
deriving Repr

/-- Apply one status-update request; a failed request leaves the store
unchanged (the raised `HTTPException` aborts before any write). -/
def applyOrderUpdate (st : OrdersState) (u : OrderUpdateReq) : OrdersState :=
  match update_order_status u.roles u.orderId u.newStatus u.ts st with
  | .ok r => r.2
  | .error _ => st

/-- Run a sequence of status-update requests. -/
def runOrderUpdates (st : OrdersState) : List OrderUpdateReq → OrdersState
  | [] => st
  | u :: us => runOrderUpdates (applyOrderUpdate st u) us

/-- Number of requests in the sequence that succeed and target order `i`,
threading the store through the sequence. -/
def countSuccessesFor (i : Nat) (st : OrdersState) : List OrderUpdateReq → Nat
  | [] => 0
  | u :: us =>
    (match update_order_status u.roles u.orderId u.newStatus u.ts st with
     | .ok _ => if u.orderId = i then 1 else 0
     | .error _ => 0)
      + countSuccessesFor i (applyOrderUpdate st u) us

/-! ### Tickets — src/api/routers/tickets.py -/

/-- One entry of a ticket's notes log; document keys `ts`, `by`, `type`,
`message`. -/
structure TicketNote where
  ts : Int
  actor : String
  kind : String
  message : String
deriving Repr, DecidableEq

/-- A `tickets` document. -/
structure Ticket where
  id : Nat
  user_id : String
  issue_type : String
  severity : String
  status : String
  assigned_to : Option String
  notes : List TicketNote
  created_at : Int
  updated_at : Int
deriving Repr, DecidableEq

/-- The ticket status enumeration accepted by `update_ticket_status`. -/
def ticketStatusAllowed : List String :=
  ["open", "assigned", "in_progress", "resolved", "closed"]

/-- The `$set status/updated_at` + `$push notes` update of
`update_ticket_status`. -/
def ticketStatusUpd (uid newStatus : String) (ts : Int) (t : Ticket) : Ticket :=
  { t with
      status := newStatus
      updated_at := ts
      notes := t.notes ++ [⟨ts, uid, "status", newStatus⟩] }

/-- `update_ticket_status` (tickets.py lines 99-130): reject unknown
labels, report a missing ticket, let the owner or staff close, let only
staff set any other label, then apply the status update and append a
status note. -/
def update_ticket_status (uid : String) (roles : List String) (ticketId : Nat)
    (newStatus : String) (ts : Int) (tickets : List Ticket) :
    Except Err (Ticket × List Ticket) :=
  if ¬ ticketStatusAllowed.contains newStatus then .error .invalidInput
  else
    match tickets.find? (fun t => t.id == ticketId) with
    | none => .error .notFound
    | some t =>
      let is_owner := t.user_id == uid
      let is_staff := isStaff roles
      if newStatus == "closed" && ¬ (is_owner || is_staff) then .error .forbidden
      else if newStatus != "closed" && ¬ is_staff then .error .forbidden
      else
        .ok ( ticketStatusUpd uid newStatus ts t
            , updateFirst (fun x => x.id == ticketId)
                (ticketStatusUpd uid newStatus ts) tickets )

/-! ### Helper lemmas -/

theorem rlEvict_length_le (window now : Int) (q : List Int) :
    (rlEvict window now q).length ≤ q.length := by
  induction q with
  | nil => simp [rlEvict]
  | cons t ts ih =>
    by_cases h : now - t > window
    · simp only [rlEvict, if_pos h]
      exact Nat.le_succ_of_le ih
    · simp [rlEvict, if_neg h]

theorem rlPost_length_le (limit : Nat) (window now : Int) (q : List Int)
    (h : q.length ≤ limit) : (rlPost limit window now q).length ≤ limit := by
  unfold rlPost rlCheck
  by_cases hl : limit ≤ (rlEvict window now q).length
  · simp only [if_pos hl]
    exact le_trans (rlEvict_length_le window now q) h
  · simp only [if_neg hl]
    simp only [List.length_append, List.length_cons, List.length_nil]
    omega

theorem rlRun_length_le (limit : Nat) (window : Int) (ts : List Int) :
    ∀ q : List Int, q.length ≤ limit →
      (rlRun limit window ts q).length ≤ limit := by
  induction ts with
  | nil => intro q h; simpa [rlRun] using h
  | cons t ts ih =>
    intro q h
    simp only [rlRun]
    exact ih _ (rlPost_length_le limit window t q h)

/-- C9: Over every sequence of calls to the rate limiter starting from the
empty per-key queue, the queue never exceeds `limit` entries after a call
returns; each call either raises RateLimited leaving only the eviction
mutation, or appends exactly one timestamp when the post-eviction length
is strictly below `limit`. -/
theorem rate_limiter_queue_bounded (limit : Nat) (window : Int) :
    (∀ (now : Int) (q : List Int),
      ((rlCheck limit window now q = .error (rlEvict window now q) ∧
          limit ≤ (rlEvict window now q).length) ∨
        (rlCheck limit window now q = .ok (rlEvict window now q ++ [now]) ∧
          (rlEvict window now q).length < limit)) ∧
      (q.length ≤ limit → (rlPost limit window now q).length ≤ limit)) ∧
    (∀ times : List Int, (rlRun limit window times []).length ≤ limit) := by
  constructor
  · intro now q
    refine ⟨?_, fun h => rlPost_length_le limit window now q h⟩
    by_cases hl : limit ≤ (rlEvict window now q).length
    · exact Or.inl ⟨by simp [rlCheck, if_pos hl], hl⟩
    · exact Or.inr ⟨by simp [rlCheck, if_neg hl], Nat.lt_of_not_le hl⟩
  · intro times
    exact rlRun_length_le limit window times [] (by simp)

/-- Witness for C9 at a concrete queue and trace. -/
theorem rate_limiter_queue_bounded_witness :
    ([0, 1].length ≤ 2 ∧ (rlPost 2 60 5 [0, 1]).length ≤ 2) ∧
      (rlRun 2 60 [0, 1, 2, 3] []).length ≤ 2 := by
  have h := rate_limiter_queue_bounded 2 60
  exact ⟨⟨by decide, (h.1 5 [0, 1]).2 (by decide)⟩, h.2 [0, 1, 2, 3]⟩

theorem getOrCreateConversation_messages (st : ChatState) (uid : String) (ts : Int) :
    (getOrCreateConversation st uid ts).2.messages = st.messages := by
  unfold getOrCreateConversation
  cases activeConversation st.conversations uid <;> simp

/-- C1: When the principal's queue still holds `limit` events after
eviction, `chat_send` fails RateLimited, the document store is untouched
(no conversation created, no message persisted), and the result does not
depend on the AI service at all (it is never called). -/
theorem chat_send_rate_limited (limit : Nat) (window : Int) (q : List Int)
    (nowLim : Int) (st : ChatState) (uid message : String)
    (context : Option JVal) (ai ai2 : AIOutcome) (tConv tUser tAi : Int)
    (h : limit ≤ (rlEvict window nowLim q).length) :
    (chat_send limit window q nowLim st uid message context ai tConv tUser tAi).outcome =
        .error .rateLimited ∧
    (chat_send limit window q nowLim st uid message context ai tConv tUser tAi).state = st ∧
    chat_send limit window q nowLim st uid message context ai tConv tUser tAi =
      chat_send limit window q nowLim st uid message context ai2 tConv tUser tAi := by
  have hc : rlCheck limit window nowLim q = .error (rlEvict window nowLim q) := by
    simp [rlCheck, if_pos h]
  refine ⟨?_, ?_, ?_⟩ <;> simp [chat_send, hc]

/-- Witness for C1: the 21st send within the 60-second window for the same
principal, with the configured limit of 20 per minute, fails RateLimited
and leaves the store unchanged. -/
theorem chat_send_rate_limited_witness :
    20 ≤ (rlEvict 60 0 (List.replicate 20 (0 : Int))).length ∧
    (chat_send 20 60 (List.replicate 20 (0 : Int)) 0 ⟨[], [], 0⟩ "u" "hello"
        none .transportError 1 2 3).outcome = .error .rateLimited ∧
    (chat_send 20 60 (List.replicate 20 (0 : Int)) 0 ⟨[], [], 0⟩ "u" "hello"
        none .transportError 1 2 3).state = ⟨[], [], 0⟩ := by
  have h := chat_send_rate_limited 20 60 (List.replicate 20 (0 : Int)) 0
    ⟨[], [], 0⟩ "u" "hello" none .transportError .transportError 1 2 3 (by decide)
  exact ⟨by decide, h.1, h.2.1⟩

/-- The failure conditions of the external AI call as the claim enumerates
them: a transport error, an HTTP status >= 400, a non-JSON body, a JSON
body that is not an object, or an object body missing the `reply` field. -/
def aiCallFails (ai : AIOutcome) : Prop :=
  ai = .transportError ∨
  ∃ status body, ai = .response status body ∧
    (400 ≤ status ∨ body = none ∨
     (∃ v, body = some v ∧ ∀ kvs, v ≠ JVal.obj kvs) ∨
     (∃ kvs, body = some (.obj kvs) ∧ jLookup kvs "reply" = none))

theorem call_ai_engine_error_eq (ai : AIOutcome) (e : Err)
    (h : call_ai_engine ai = .error e) : e = .upstreamError := by
  cases ai with
  | transportError =>
    simp [call_ai_engine] at h
    exact h.symm
  | response s b =>
    by_cases hs : 400 ≤ s
    · simp [call_ai_engine, hs] at h
      exact h.symm
    · cases b with
      | none =>
        simp [call_ai_engine, hs] at h
        exact h.symm
      | some v =>
        cases v <;> simp [call_ai_engine, hs] at h <;> try exact h.symm
        rename_i kvs
        by_cases hl : (jLookup kvs "reply").isSome <;> simp [hl] at h
        exact h.symm

theorem aiCallFails_iff (ai : AIOutcome) :
    aiCallFails ai ↔ call_ai_engine ai = .error .upstreamError := by
  constructor
  · intro h
    rcases h with h | ⟨s, b, heq, hcase⟩
    · subst h; rfl
    · subst heq
      rcases hcase with hs | hb | ⟨v, hb, hobj⟩ | ⟨kvs, hb, hlook⟩
      · simp [call_ai_engine, hs]
      · subst hb
        by_cases hs : 400 ≤ s <;> simp [call_ai_engine, hs]
      · subst hb
        by_cases hs : 400 ≤ s
        · simp [call_ai_engine, hs]
        · cases v with
          | obj kvs => exact absurd rfl (hobj kvs)
          | null => simp [call_ai_engine, hs]
          | bool x => simp [call_ai_engine, hs]
          | int n => simp [call_ai_engine, hs]
          | str t => simp [call_ai_engine, hs]
          | arr xs => simp [call_ai_engine, hs]
      · subst hb
        by_cases hs : 400 ≤ s <;> simp [call_ai_engine, hs, hlook]
  · intro h
    cases ai with
    | transportError => exact Or.inl rfl
    | response s b =>
      by_cases hs : 400 ≤ s
      · exact Or.inr ⟨s, b, rfl, Or.inl hs⟩
      · cases b with
        | none => exact Or.inr ⟨s, none, rfl, Or.inr (Or.inl rfl)⟩
        | some v =>
          cases v with
          | obj kvs =>
            by_cases hl : (jLookup kvs "reply").isSome
            · simp [call_ai_engine, hs, hl] at h
            · exact Or.inr ⟨s, some (.obj kvs), rfl,
                Or.inr (Or.inr (Or.inr ⟨kvs, rfl,
                  Option.not_isSome_iff_eq_none.mp hl⟩))⟩
          | null => exact Or.inr ⟨s, some .null, rfl,
              Or.inr (Or.inr (Or.inl ⟨.null, rfl, by intro kvs; simp⟩))⟩
          | bool x => exact Or.inr ⟨s, some (.bool x), rfl,
              Or.inr (Or.inr (Or.inl ⟨.bool x, rfl, by intro kvs; simp⟩))⟩
          | int n => exact Or.inr ⟨s, some (.int n), rfl,
              Or.inr (Or.inr (Or.inl ⟨.int n, rfl, by intro kvs; simp⟩))⟩
          | str t => exact Or.inr ⟨s, some (.str t), rfl,
              Or.inr (Or.inr (Or.inl ⟨.str t, rfl, by intro kvs; simp⟩))⟩
          | arr xs => exact Or.inr ⟨s, some (.arr xs), rfl,
              Or.inr (Or.inr (Or.inl ⟨.arr xs, rfl, by intro kvs; simp⟩))⟩

/-- C2: When the limiter admits the send and the external AI call yields a
transport error, a status >= 400, a non-JSON or non-object body, or a body
missing `reply`, `chat_send` fails UpstreamError and exactly the user's
message has been appended to the store (the send is not rolled back); and
whenever the send succeeds, exactly one further AI message has been
appended after the user's message. -/
theorem chat_send_upstream (limit : Nat) (window : Int) (q : List Int)
    (nowLim : Int) (st : ChatState) (uid message : String)
    (context : Option JVal) (ai : AIOutcome) (tConv tUser tAi : Int)
    (hq : (rlEvict window nowLim q).length < limit) :
    (aiCallFails ai →
      (chat_send limit window q nowLim st uid message context ai tConv tUser tAi).outcome =
          .error .upstreamError ∧
      ∃ umsg,
        (chat_send limit window q nowLim st uid message context ai tConv tUser tAi).state.messages =
            st.messages ++ [umsg] ∧
          umsg.sender = "user" ∧ umsg.text = some message) ∧
    (∀ out,
      (chat_send limit window q nowLim st uid message context ai tConv tUser tAi).outcome =
          .ok out →
      ∃ umsg amsg,
        (chat_send limit window q nowLim st uid message context ai tConv tUser tAi).state.messages =
          st.messages ++ [umsg] ++ [amsg] ∧
        umsg.sender = "user" ∧ umsg.text = some message ∧ amsg.sender = "ai") := by
  have hc : rlCheck limit window nowLim q = .ok (rlEvict window nowLim q ++ [nowLim]) := by
    unfold rlCheck
    rw [if_neg (by omega)]
  constructor
  · intro hfail
    have hcall := (aiCallFails_iff ai).mp hfail
    constructor
    · simp [chat_send, hc, hcall]
    · simp only [chat_send, hc, hcall, storeMessage, getOrCreateConversation_messages]
      exact ⟨_, rfl, rfl, rfl⟩
  · intro out hout
    cases hcall : call_ai_engine ai with
    | error e => simp [chat_send, hc, hcall] at hout
    | ok data =>
      by_cases hval : (suggestedActionsOf data).all JVal.isObj = true
      · simp only [chat_send, hc, hcall, if_pos hval, storeMessage,
          getOrCreateConversation_messages]
        exact ⟨_, _, rfl, rfl, rfl, rfl⟩
      · simp [chat_send, hc, hcall, hval] at hout

/-- Witness for C2: a transport error on an empty store leaves exactly the
persisted user message and fails UpstreamError, while a well-formed reply
leads to a successful send with exactly one further AI message. -/
theorem chat_send_upstream_witness :
    (rlEvict 60 0 ([] : List Int)).length < 20 ∧
    (chat_send 20 60 [] 0 ⟨[], [], 0⟩ "u" "hello" none .transportError
        1 2 3).outcome = .error .upstreamError ∧
    (∃ umsg,
      (chat_send 20 60 [] 0 ⟨[], [], 0⟩ "u" "hello" none .transportError
          1 2 3).state.messages = [] ++ [umsg] ∧
        umsg.sender = "user" ∧ umsg.text = some "hello") ∧
    (∃ umsg amsg,
      (chat_send 20 60 [] 0 ⟨[], [], 0⟩ "u" "hello" none
          (.response 200 (some (.obj [("reply", JVal.str "ok")])))
          1 2 3).state.messages = [] ++ [umsg] ++ [amsg] ∧
        umsg.sender = "user" ∧ umsg.text = some "hello" ∧ amsg.sender = "ai") := by
  have h1 := chat_send_upstream 20 60 [] 0 ⟨[], [], 0⟩ "u" "hello" none
    .transportError 1 2 3 (by decide)
  have h2 := chat_send_upstream 20 60 [] 0 ⟨[], [], 0⟩ "u" "hello" none
    (.response 200 (some (.obj [("reply", JVal.str "ok")]))) 1 2 3 (by decide)
  have hfail := h1.1 (Or.inl rfl)
  exact ⟨by decide, hfail.1, hfail.2, h2.2 ⟨"ok", [], 0, 1, 2⟩ rfl⟩

/-- C10 (as amended): The orchestrator checks only that the `reply` key is
present, not its type: for any object response carrying a non-string
`reply` value (with an accepted status), the send never fails
UpstreamError and the value coerced to a string via `str()` is persisted
as the AI message's text; the send then succeeds returning that string
when every entry of the normalized `suggested_actions` list is an object,
and otherwise fails with a response-model validation error raised after
the AI message was persisted. -/
theorem chat_send_reply_coerced (limit : Nat) (window : Int) (q : List Int)
    (nowLim : Int) (st : ChatState) (uid message : String) (context : Option JVal)
    (status : Nat) (kvs : List (String × JVal)) (v : JVal) (tConv tUser tAi : Int)
    (hq : (rlEvict window nowLim q).length < limit)
    (hstatus : status < 400)
    (hv : jLookup kvs "reply" = some v)
    (_hnotstr : ∀ s, v ≠ .str s) :
    (chat_send limit window q nowLim st uid message context
        (.response status (some (.obj kvs))) tConv tUser tAi).outcome ≠
      .error .upstreamError ∧
    (∃ umsg amsg,
      (chat_send limit window q nowLim st uid message context
          (.response status (some (.obj kvs))) tConv tUser tAi).state.messages =
        st.messages ++ [umsg] ++ [amsg] ∧
      umsg.sender = "user" ∧ amsg.sender = "ai" ∧ amsg.text = some (pyStr v)) ∧
    ((suggestedActionsOf (.obj kvs)).all JVal.isObj = true →
      ∃ out,
        (chat_send limit window q nowLim st uid message context
            (.response status (some (.obj kvs))) tConv tUser tAi).outcome =
          .ok out ∧ out.reply = pyStr v) ∧
    ((suggestedActionsOf (.obj kvs)).all JVal.isObj = false →
      (chat_send limit window q nowLim st uid message context
          (.response status (some (.obj kvs))) tConv tUser tAi).outcome =
        .error .validationError) := by
  have hc : rlCheck limit window nowLim q = .ok (rlEvict window nowLim q ++ [nowLim]) := by
    unfold rlCheck
    rw [if_neg (by omega)]
  have hcall : call_ai_engine (.response status (some (.obj kvs))) = .ok (.obj kvs) := by
    simp [call_ai_engine, Nat.not_le.mpr hstatus, hv]
  refine ⟨?_, ?_, ?_, ?_⟩
  · by_cases hval : (suggestedActionsOf (.obj kvs)).all JVal.isObj = true <;>
      simp [chat_send, hc, hcall, hval]
  · by_cases hval : (suggestedActionsOf (.obj kvs)).all JVal.isObj = true
    · simp only [chat_send, hc, hcall, jGet, hv, Option.getD_some, storeMessage,
        getOrCreateConversation_messages]
      rw [if_pos hval]
      exact ⟨_, _, rfl, rfl, rfl, rfl⟩
    · simp only [chat_send, hc, hcall, jGet, hv, Option.getD_some, storeMessage,
        getOrCreateConversation_messages]
      rw [if_neg hval]
      exact ⟨_, _, rfl, rfl, rfl, rfl⟩
  · intro hval
    simp only [chat_send, hc, hcall, jGet, hv, Option.getD_some]
    rw [if_pos hval]
    exact ⟨_, rfl, rfl⟩
  · intro hval
    simp only [chat_send, hc, hcall]
    rw [if_neg (by simp [hval])]

/-- Counterexample for C10 as originally stated: at the object body
`\x7b"reply": null, "suggested_actions": [1]\x7d` the send does not
succeed — the AI message is persisted (both messages stored) and the
request then fails with the response-model validation error. -/
theorem chat_send_reply_coerced_counterexample :
    jLookup [("reply", JVal.null), ("suggested_actions", JVal.arr [JVal.int 1])]
        "reply" = some JVal.null ∧
    (∀ s, JVal.null ≠ JVal.str s) ∧
    (chat_send 20 60 [] 0 ⟨[], [], 0⟩ "u" "hello" none
        (.response 200 (some (.obj [("reply", JVal.null),
          ("suggested_actions", JVal.arr [JVal.int 1])]))) 1 2 3).outcome =
      .error .validationError ∧
    (¬ ∃ out,
      (chat_send 20 60 [] 0 ⟨[], [], 0⟩ "u" "hello" none
          (.response 200 (some (.obj [("reply", JVal.null),
            ("suggested_actions", JVal.arr [JVal.int 1])]))) 1 2 3).outcome =
        .ok out) ∧
    (chat_send 20 60 [] 0 ⟨[], [], 0⟩ "u" "hello" none
        (.response 200 (some (.obj [("reply", JVal.null),
          ("suggested_actions", JVal.arr [JVal.int 1])]))) 1 2 3).state.messages.length = 2 := by
  refine ⟨rfl, ?_, rfl, ?_, rfl⟩
  · intro s h
    cases h
  · rintro ⟨out, hout⟩
    exact absurd ((show Except.error Err.validationError =
        (chat_send 20 60 [] 0 ⟨[], [], 0⟩ "u" "hello" none
          (.response 200 (some (.obj [("reply", JVal.null),
            ("suggested_actions", JVal.arr [JVal.int 1])]))) 1 2 3).outcome
        from rfl).trans hout) (by simp)

/-- Witness for C10: a `reply` of JSON null with no suggested actions is
accepted and persisted as the string "None". -/
theorem chat_send_reply_coerced_witness :
    (rlEvict 60 0 ([] : List Int)).length < 20 ∧
    jLookup [("reply", JVal.null)] "reply" = some JVal.null ∧
    pyStr JVal.null = "None" ∧
    (suggestedActionsOf (.obj [("reply", JVal.null)])).all JVal.isObj = true ∧
    (chat_send 20 60 [] 0 ⟨[], [], 0⟩ "u" "hello" none
        (.response 200 (some (.obj [("reply", JVal.null)]))) 1 2 3).outcome ≠
      .error .upstreamError ∧
    (∃ umsg amsg,
      (chat_send 20 60 [] 0 ⟨[], [], 0⟩ "u" "hello" none
          (.response 200 (some (.obj [("reply", JVal.null)]))) 1 2 3).state.messages =
        [] ++ [umsg] ++ [amsg] ∧
      umsg.sender = "user" ∧ amsg.sender = "ai" ∧ amsg.text = some (pyStr JVal.null)) ∧
    (∃ out,
      (chat_send 20 60 [] 0 ⟨[], [], 0⟩ "u" "hello" none
          (.response 200 (some (.obj [("reply", JVal.null)]))) 1 2 3).outcome =
        .ok out ∧ out.reply = pyStr JVal.null) := by
  have h := chat_send_reply_coerced 20 60 [] 0 ⟨[], [], 0⟩ "u" "hello" none
    200 [("reply", JVal.null)] JVal.null 1 2 3 (by decide) (by decide) rfl
    (by intro s h; cases h)
  exact ⟨by decide, rfl, rfl, rfl, h.1, h.2.1, h.2.2.1 rfl⟩


/-- C5: On a ticket status update with a valid label, an existing ticket
can be set to `closed` exactly when the caller is the owner or staff
(Forbidden otherwise), can be set to any other label exactly when the
caller is staff (Forbidden otherwise), and a missing ticket id yields
NotFound. -/
theorem ticket_status_update_auth (uid : String) (roles : List String)
    (ticketId : Nat) (newStatus : String) (ts : Int) (tickets : List Ticket)
    (hs : newStatus ∈ ticketStatusAllowed) :
    (∀ t, tickets.find? (fun x => x.id == ticketId) = some t →
      (newStatus = "closed" →
        ((∃ r, update_ticket_status uid roles ticketId newStatus ts tickets = .ok r) ↔
          (t.user_id = uid ∨ isStaff roles = true)) ∧
        (¬ (t.user_id = uid ∨ isStaff roles = true) →
          update_ticket_status uid roles ticketId newStatus ts tickets = .error .forbidden)) ∧
      (newStatus ≠ "closed" →
        ((∃ r, update_ticket_status uid roles ticketId newStatus ts tickets = .ok r) ↔
          isStaff roles = true) ∧
        (isStaff roles = false →
          update_ticket_status uid roles ticketId newStatus ts tickets = .error .forbidden))) ∧
    (tickets.find? (fun x => x.id == ticketId) = none →
      update_ticket_status uid roles ticketId newStatus ts tickets = .error .notFound) := by
  have hcontains : ticketStatusAllowed.contains newStatus = true := by
    simpa using hs
  constructor
  · intro t hfind
    constructor
    · intro hclosed
      subst hclosed
      by_cases hos : (t.user_id == uid || isStaff roles) = true
      · constructor
        · simp only [update_ticket_status, hcontains, hfind]
          simp [hos]
          rcases Bool.or_eq_true _ _ |>.mp hos with h | h
          · exact Or.inl (by simpa using h)
          · exact Or.inr h
        · intro hno
          exfalso
          rcases Bool.or_eq_true _ _ |>.mp hos with h | h
          · exact hno (Or.inl (by simpa using h))
          · exact hno (Or.inr h)
      · constructor
        · simp only [update_ticket_status, hcontains, hfind]
          simp [hos]
          simp only [Bool.or_eq_true, not_or] at hos
          exact ⟨fun h => hos.1 (by simp [h]), by simpa using hos.2⟩
        · intro _
          simp only [update_ticket_status, hcontains, hfind]
          simp [hos]
    · intro hne
      have hbe : (newStatus == "closed") = false := by
        simpa using hne
      by_cases hstaff : isStaff roles = true
      · constructor
        · simp only [update_ticket_status, hcontains, hfind]
          simp [hbe, hstaff]
        · intro hfalse
          simp [hstaff] at hfalse
      · have hstaff' : isStaff roles = false := by
          simpa using hstaff
        constructor
        · simp only [update_ticket_status, hcontains, hfind]
          simp [hbe, hstaff', hne]
        · intro _
          simp only [update_ticket_status, hcontains, hfind]
          simp [hbe, hstaff', hne]
  · intro hnone
    simp only [update_ticket_status, hcontains, hnone]
    simp

/-- Ticket fixture for the C5 witness: owned by "owner1". -/
def ticketW : Ticket := ⟨50, "owner1", "net", "medium", "open", none, [], 0, 0⟩

/-- Witness for C5: the owner without any staff role closes the ticket
successfully, yet gets Forbidden for `in_progress`. -/
theorem ticket_status_update_auth_witness :
    "closed" ∈ ticketStatusAllowed ∧
    (∃ r, update_ticket_status "owner1" ["user"] 50 "closed" 9 [ticketW] = .ok r) ∧
    update_ticket_status "owner1" ["user"] 50 "in_progress" 9 [ticketW] =
      .error .forbidden := by
  have h1 := ticket_status_update_auth "owner1" ["user"] 50 "closed" 9 [ticketW]
    (by decide)
  have h2 := ticket_status_update_auth "owner1" ["user"] 50 "in_progress" 9 [ticketW]
    (by decide)
  refine ⟨by decide, ?_, ?_⟩
  · exact ((h1.1 ticketW rfl).1 rfl).1.mpr (Or.inl rfl)
  · exact ((h2.1 ticketW rfl).2 (by decide)).2 (by decide)

/-- C6: For a staff caller, an order status update accepts any of the four
labels regardless of the order's current status (terminal states
included), appending the timeline entry with actor "staff" and stamping
`updated_at`; an unknown label fails InvalidInput and an unresolved order
id fails NotFound. -/
theorem order_status_update_behaviour (roles : List String) (orderId : Nat)
    (newStatus : String) (ts : Int) (st : OrdersState)
    (hstaff : isStaff roles = true) :
    (∀ o, st.orders.find? (fun x => x.id == orderId) = some o →
      newStatus ∈ orderStatusAllowed →
      ∃ o2 st2, update_order_status roles orderId newStatus ts st = .ok (o2, st2) ∧
        o2.status = newStatus ∧
        o2.timeline = o.timeline ++ [⟨newStatus, ts, "staff"⟩] ∧
        o2.updated_at = ts) ∧
    (newStatus ∉ orderStatusAllowed →
      update_order_status roles orderId newStatus ts st = .error .invalidInput) ∧
    (newStatus ∈ orderStatusAllowed →
      st.orders.find? (fun x => x.id == orderId) = none →
      update_order_status roles orderId newStatus ts st = .error .notFound) := by
  refine ⟨?_, ?_, ?_⟩
  · intro o hfind hmem
    have hcontains : orderStatusAllowed.contains newStatus = true := by simpa using hmem
    simp only [update_order_status, hstaff, hcontains, hfind]
    rw [if_neg (by simp [hstaff])]
    rw [if_neg (by simp [hcontains])]
    exact ⟨_, _, rfl, rfl, rfl, rfl⟩
  · intro hnot
    have hcontains : orderStatusAllowed.contains newStatus = false := by simpa using hnot
    simp [update_order_status, hstaff, hcontains]
    exact fun h => absurd h hnot
  · intro hmem hnone
    have hcontains : orderStatusAllowed.contains newStatus = true := by simpa using hmem
    simp [update_order_status, hstaff, hcontains, hnone]
    exact hmem

/-- Order fixture for the C6 witness: currently in the terminal state
`completed`. -/
def orderW : Order :=
  ⟨200, "u", 100, "addr", "560001", 499, "completed", "slot", none,
    [⟨"scheduled", 0, "u"⟩, ⟨"completed", 1, "staff"⟩], 0, 1⟩

/-- Orders-store fixture for the C6 witness. -/
def ordersStW : OrdersState := ⟨[], [], [orderW], 300⟩

/-- Witness for C6: a staff engineer moves a `completed` order back to
`scheduled`, an unknown label is InvalidInput, a missing id is NotFound. -/
theorem order_status_update_behaviour_witness :
    isStaff ["engineer"] = true ∧
    (∃ o2 st2, update_order_status ["engineer"] 200 "scheduled" 5 ordersStW =
        .ok (o2, st2) ∧
      o2.status = "scheduled" ∧
      o2.timeline = orderW.timeline ++ [⟨"scheduled", 5, "staff"⟩] ∧
      o2.updated_at = 5) ∧
    update_order_status ["engineer"] 200 "bogus" 5 ordersStW = .error .invalidInput ∧
    update_order_status ["engineer"] 999 "scheduled" 5 ordersStW = .error .notFound := by
  have h1 := order_status_update_behaviour ["engineer"] 200 "scheduled" 5 ordersStW
    (by decide)
  have h2 := order_status_update_behaviour ["engineer"] 200 "bogus" 5 ordersStW
    (by decide)
  have h3 := order_status_update_behaviour ["engineer"] 999 "scheduled" 5 ordersStW
    (by decide)
  exact ⟨by decide, h1.1 orderW rfl (by decide), h2.2.1 (by decide),
    h3.2.2 (by decide) (by decide)⟩

/-- Folding `pickMinWorkload` from a seed engineer yields a minimum-workload
element of the seed and the list. -/
theorem pickMinWorkload_foldl (l : List Engineer) :
    ∀ b : Engineer,
      ∃ r, l.foldl pickMinWorkload (some b) = some r ∧
        (r = b ∨ r ∈ l) ∧ r.workload ≤ b.workload ∧
        ∀ x ∈ l, r.workload ≤ x.workload := by
  induction l with
  | nil => intro b; exact ⟨b, rfl, Or.inl rfl, le_refl _, by simp⟩
  | cons e es ih =>
    intro b
    by_cases h : e.workload < b.workload
    · obtain ⟨r, hr, hmem, hle, hall⟩ := ih e
      refine ⟨r, ?_, ?_, ?_, ?_⟩
      · simpa [pickMinWorkload, h] using hr
      · rcases hmem with rfl | hm
        · exact Or.inr (List.mem_cons_self _ _)
        · exact Or.inr (List.mem_cons_of_mem _ hm)
      · exact le_trans hle (le_of_lt h)
      · intro x hx
        rcases List.mem_cons.mp hx with rfl | hx'
        · exact hle
        · exact hall x hx'
    · obtain ⟨r, hr, hmem, hle, hall⟩ := ih b
      refine ⟨r, ?_, ?_, hle, ?_⟩
      · simpa [pickMinWorkload, h] using hr
      · rcases hmem with rfl | hm
        · exact Or.inl rfl
        · exact Or.inr (List.mem_cons_of_mem _ hm)
      · intro x hx
        rcases List.mem_cons.mp hx with rfl | hx'
        · exact le_trans hle (Nat.le_of_not_lt h)
        · exact hall x hx'

/-- `_pick_engineer_for_area` returns no engineer exactly on an empty match
set, and otherwise a matching engineer of minimal workload. -/
theorem pick_engineer_spec (engineers : List Engineer) (pincode : String) :
    (engineers.filter (engineerMatches pincode) = [] →
      pick_engineer_for_area engineers pincode = none) ∧
    (∀ e0 ∈ engineers.filter (engineerMatches pincode),
      ∃ r, pick_engineer_for_area engineers pincode = some r ∧
        r ∈ engineers ∧ engineerMatches pincode r = true ∧
        ∀ x ∈ engineers, engineerMatches pincode x = true →
          r.workload ≤ x.workload) := by
  constructor
  · intro hempty
    simp [pick_engineer_for_area, hempty]
  · intro e0 he0
    cases hf : engineers.filter (engineerMatches pincode) with
    | nil => rw [hf] at he0; cases he0
    | cons m ms =>
      obtain ⟨r, hr, hmem, hle, hall⟩ := pickMinWorkload_foldl ms m
      have hpick : pick_engineer_for_area engineers pincode = some r := by
        simpa [pick_engineer_for_area, hf, pickMinWorkload] using hr
      have hrfilter : r ∈ engineers.filter (engineerMatches pincode) := by
        rw [hf]
        rcases hmem with rfl | hm
        · exact List.mem_cons_self _ _
        · exact List.mem_cons_of_mem _ hm
      have hrProps := List.mem_filter.mp hrfilter
      refine ⟨r, hpick, hrProps.1, hrProps.2, ?_⟩
      intro x hx hmatch
      have hxfilter : x ∈ engineers.filter (engineerMatches pincode) :=
        List.mem_filter.mpr ⟨hx, hmatch⟩
      rw [hf] at hxfilter
      rcases List.mem_cons.mp hxfilter with rfl | hx'
      · exact hle
      · exact hall x hx'

/-- C4: With an existing ACTIVE plan, order creation always succeeds with
status `scheduled`; when no ACTIVE install-skilled engineer serves the
pincode the order is created unassigned, and when at least one does the
assigned engineer is such an engineer with minimal workload among them. -/
theorem order_creation_assignment (st : OrdersState) (uid : String) (planId : Nat)
    (address pincode slot : String) (ts : Int) (plan : Plan)
    (hplan : st.plans.find? (fun p => p.id == planId && p.status == "ACTIVE") =
      some plan) :
    ∃ o st2, create_order st uid planId address pincode slot ts = .ok (o, st2) ∧
      o.status = "scheduled" ∧
      (st.engineers.filter (engineerMatches pincode) = [] →
        o.assigned_engineer_id = none) ∧
      (∀ e0 ∈ st.engineers, engineerMatches pincode e0 = true →
        ∃ e, pick_engineer_for_area st.engineers pincode = some e ∧
          o.assigned_engineer_id = some e.id ∧
          e ∈ st.engineers ∧ engineerMatches pincode e = true ∧
          ∀ x ∈ st.engineers, engineerMatches pincode x = true →
            e.workload ≤ x.workload) := by
  have hpick := pick_engineer_spec st.engineers pincode
  simp only [create_order, hplan]
  refine ⟨_, _, rfl, rfl, ?_, ?_⟩
  · intro hempty
    simp [hpick.1 hempty]
  · intro e0 he0 hm
    obtain ⟨r, hr, hrmem, hrmatch, hrmin⟩ :=
      hpick.2 e0 (List.mem_filter.mpr ⟨he0, hm⟩)
    exact ⟨r, hr, by simp [hr], hrmem, hrmatch, hrmin⟩

/-- Engineer fixture for the C4 witness: workload 2 serving pincode 560001. -/
def engA : Engineer := ⟨1, ["560001"], ["install"], 2, "ACTIVE", 0⟩
/-- Engineer fixture for the C4 witness: workload 0 serving pincode 560001. -/
def engB : Engineer := ⟨2, ["560001"], ["install"], 0, "ACTIVE", 0⟩
/-- Plan fixture for the C4 witness. -/
def planW : Plan := ⟨100, 499, "ACTIVE"⟩
/-- Store fixture for the C4 witness. -/
def ordersStC4 : OrdersState := ⟨[planW], [engA, engB], [], 200⟩

/-- Witness for C4: between matching engineers of workload 2 and 0 the
workload-0 engineer is assigned; an unmatched pincode still creates the
order unassigned. -/
theorem order_creation_assignment_witness :
    (∃ o st2, create_order ordersStC4 "u" 100 "addr" "560001" "slot" 5 =
        .ok (o, st2) ∧ o.assigned_engineer_id = some 2 ∧ o.status = "scheduled") ∧
    (∃ o st2, create_order ordersStC4 "u" 100 "addr" "999999" "slot" 5 =
        .ok (o, st2) ∧ o.assigned_engineer_id = none ∧ o.status = "scheduled") := by
  have h1 := order_creation_assignment ordersStC4 "u" 100 "addr" "560001" "slot" 5
    planW rfl
  have h2 := order_creation_assignment ordersStC4 "u" 100 "addr" "999999" "slot" 5
    planW rfl
  constructor
  · obtain ⟨o, st2, heq, hstatus, _, hall⟩ := h1
    obtain ⟨e, hpickE, hassigned, _, _, _⟩ := hall engA (by decide) (by decide)
    have heB : some e = some engB :=
      hpickE.symm.trans (rfl : pick_engineer_for_area ordersStC4.engineers "560001" = some engB)
    have : e = engB := Option.some_injective _ heB
    subst this
    exact ⟨o, st2, heq, hassigned, hstatus⟩
  · obtain ⟨o, st2, heq, hstatus, hempty, _⟩ := h2
    exact ⟨o, st2, heq, hempty rfl, hstatus⟩

/-- A picked engineer is one of the stored engineers. -/
theorem pick_engineer_mem (engineers : List Engineer) (pincode : String)
    (e : Engineer) (h : pick_engineer_for_area engineers pincode = some e) :
    e ∈ engineers := by
  cases hf : engineers.filter (engineerMatches pincode) with
  | nil =>
    rw [(pick_engineer_spec engineers pincode).1 hf] at h
    cases h
  | cons m ms =>
    obtain ⟨r, hr, hrmem, _, _⟩ := (pick_engineer_spec engineers pincode).2 m
      (by rw [hf]; exact List.mem_cons_self _ _)
    have : r = e := Option.some_injective _ (hr.symm.trans h)
    subst this
    exact hrmem

/-- When some element matches, `updateFirst` rewrites exactly one position
and leaves every other element in place. -/
theorem updateFirst_decomp (p : α → Bool) (f : α → α) :
    ∀ l : List α, (∃ x ∈ l, p x = true) →
      ∃ k, ∃ hk : k < l.length, p (l.get ⟨k, hk⟩) = true ∧
        updateFirst p f l = l.take k ++ [f (l.get ⟨k, hk⟩)] ++ l.drop (k + 1) := by
  intro l
  induction l with
  | nil =>
    rintro ⟨x, hx, _⟩
    cases hx
  | cons a as ih =>
    intro hex
    by_cases ha : p a = true
    · refine ⟨0, by simp, ha, ?_⟩
      simp [updateFirst, ha]
    · have hex' : ∃ x ∈ as, p x = true := by
        obtain ⟨x, hx, hpx⟩ := hex
        rcases List.mem_cons.mp hx with rfl | hx'
        · exact absurd hpx ha
        · exact ⟨x, hx', hpx⟩
      obtain ⟨k, hk, hpk, heq⟩ := ih hex'
      refine ⟨k + 1, by simpa using Nat.succ_lt_succ hk, by simpa using hpk, ?_⟩
      simp only [updateFirst, if_neg ha, heq, List.take_succ_cons,
        List.drop_succ_cons, List.get_cons_succ]
      simp

/-- C8: A successful order creation appends exactly one order document;
when an engineer was picked, exactly one engineer document — one whose id
is the picked engineer's — has its workload incremented by 1 and its
update time stamped while every other engineer (and the plans collection)
is untouched; when none was picked, no engineer document is mutated. -/
theorem order_creation_frame (st : OrdersState) (uid : String) (planId : Nat)
    (address pincode slot : String) (ts : Int) (o : Order) (st2 : OrdersState)
    (h : create_order st uid planId address pincode slot ts = .ok (o, st2)) :
    st2.orders = st.orders ++ [o] ∧
    st2.plans = st.plans ∧
    ((pick_engineer_for_area st.engineers pincode = none ∧
        st2.engineers = st.engineers) ∨
      (∃ e, pick_engineer_for_area st.engineers pincode = some e ∧
        ∃ k, ∃ hk : k < st.engineers.length,
          (st.engineers.get ⟨k, hk⟩).id = e.id ∧
          st2.engineers =
            st.engineers.take k ++ [bumpWorkload ts (st.engineers.get ⟨k, hk⟩)] ++
              st.engineers.drop (k + 1))) := by
  cases hp : st.plans.find? (fun p => p.id == planId && p.status == "ACTIVE") with
  | none => simp [create_order, hp] at h
  | some plan =>
    simp only [create_order, hp] at h
    rw [Except.ok.injEq, Prod.mk.injEq] at h
    obtain ⟨ho, hst⟩ := h
    cases hpe : pick_engineer_for_area st.engineers pincode with
    | none =>
      subst hst
      refine ⟨by simp [ho], rfl, Or.inl ⟨rfl, ?_⟩⟩
      simp [hpe]
    | some e =>
      have hmem : e ∈ st.engineers := pick_engineer_mem st.engineers pincode e hpe
      obtain ⟨k, hk, hpk, heq⟩ :=
        updateFirst_decomp (fun x => x.id == e.id) (bumpWorkload ts) st.engineers
          ⟨e, hmem, by simp⟩
      subst hst
      refine ⟨by simp [ho], rfl, Or.inr ⟨e, rfl, k, hk, by simpa using hpk, ?_⟩⟩
      simpa [hpe] using heq

/-- The order document created in the C8 witness run. -/
def orderC8 : Order := ⟨200, "u", 100, "addr", "560001", 499, "scheduled", "slot",
  some 2, [⟨"scheduled", 5, "u"⟩], 5, 5⟩

/-- The store after the C8 witness run: only engineer id 2 is mutated. -/
def stC8 : OrdersState :=
  ⟨[planW], [engA, ⟨2, ["560001"], ["install"], 1, "ACTIVE", 5⟩], [orderC8], 201⟩

/-- Witness for C8 on a concrete two-engineer store. -/
theorem order_creation_frame_witness :
    create_order ordersStC4 "u" 100 "addr" "560001" "slot" 5 = .ok (orderC8, stC8) ∧
    stC8.orders = ordersStC4.orders ++ [orderC8] ∧
    stC8.plans = ordersStC4.plans ∧
    ((pick_engineer_for_area ordersStC4.engineers "560001" = none ∧
        stC8.engineers = ordersStC4.engineers) ∨
      (∃ e, pick_engineer_for_area ordersStC4.engineers "560001" = some e ∧
        ∃ k, ∃ hk : k < ordersStC4.engineers.length,
          (ordersStC4.engineers.get ⟨k, hk⟩).id = e.id ∧
          stC8.engineers =
            ordersStC4.engineers.take k ++
              [bumpWorkload 5 (ordersStC4.engineers.get ⟨k, hk⟩)] ++
              ordersStC4.engineers.drop (k + 1))) := by
  have heq : create_order ordersStC4 "u" 100 "addr" "560001" "slot" 5 =
      .ok (orderC8, stC8) := by rfl
  have h := order_creation_frame ordersStC4 "u" 100 "addr" "560001" "slot" 5
    orderC8 stC8 heq
  exact ⟨heq, h⟩

/-- `find?` after `updateFirst` with the same predicate finds the updated
element, provided the update preserves the predicate. -/
theorem find?_updateFirst_self (p : α → Bool) (f : α → α)
    (hf : ∀ x, p (f x) = p x) :
    ∀ l : List α, List.find? p (updateFirst p f l) = (List.find? p l).map f := by
  intro l
  induction l with
  | nil => rfl
  | cons a as ih =>
    by_cases ha : p a = true
    · rw [updateFirst, if_pos ha, List.find?_cons_of_pos _ (by rw [hf a]; exact ha),
        List.find?_cons_of_pos _ ha]
      rfl
    · rw [updateFirst, if_neg ha, List.find?_cons_of_neg _ ha,
        List.find?_cons_of_neg _ ha, ih]

/-- `updateFirst` under a predicate disjoint from the searched one leaves
`find?` unchanged. -/
theorem find?_updateFirst_other (p q : α → Bool) (f : α → α)
    (hq : ∀ x, q x = true → p x = false) (hf : ∀ x, p (f x) = p x) :
    ∀ l : List α, List.find? p (updateFirst q f l) = List.find? p l := by
  intro l
  induction l with
  | nil => rfl
  | cons a as ih =>
    by_cases ha : q a = true
    · have hpa : p a = false := hq a ha
      have hpfa : p (f a) = false := by rw [hf a]; exact hpa
      rw [updateFirst, if_pos ha, List.find?_cons_of_neg _ (by simp [hpfa]),
        List.find?_cons_of_neg _ (by simp [hpa])]
    · rw [updateFirst, if_neg ha]
      by_cases hpa : p a = true
      · rw [List.find?_cons_of_pos _ hpa, List.find?_cons_of_pos _ hpa]
      · rw [List.find?_cons_of_neg _ hpa, List.find?_cons_of_neg _ hpa, ih]

/-- `find?` skips a left part with no match. -/
theorem find?_append_left_none (p : α → Bool) (l₁ l₂ : List α)
    (h : List.find? p l₁ = none) :
    List.find? p (l₁ ++ l₂) = List.find? p l₂ := by
  induction l₁ with
  | nil => rfl
  | cons a as ih =>
    rw [List.find?_cons] at h
    cases hpa : p a with
    | true => rw [hpa] at h; cases h
    | false =>
      rw [hpa] at h
      rw [List.cons_append, List.find?_cons_of_neg _ (by simp [hpa]), ih h]

/-- Inversion of a successful `update_order_status`: the order was found
and the result is exactly the status/timeline update of that document. -/
theorem update_order_status_ok_inv (roles : List String) (orderId : Nat)
    (newStatus : String) (ts : Int) (st : OrdersState) (r : Order × OrdersState)
    (h : update_order_status roles orderId newStatus ts st = .ok r) :
    ∃ o, List.find? (fun x => x.id == orderId) st.orders = some o ∧
      r = (orderStatusUpd newStatus ts o,
        { st with orders := (updateFirst (fun x => x.id == orderId)
            (orderStatusUpd newStatus ts) st.orders) }) := by
  unfold update_order_status at h
  by_cases hstaff : isStaff roles = true
  · rw [if_neg (by simp [hstaff])] at h
    by_cases hc : orderStatusAllowed.contains newStatus = true
    · rw [if_neg (not_not_intro hc)] at h
      cases hfind : List.find? (fun o => o.id == orderId) st.orders with
      | none => rw [hfind] at h; cases h
      | some o =>
        rw [hfind] at h
        exact ⟨o, rfl, (Except.ok.inj h).symm⟩
    · rw [if_pos (by simpa using hc)] at h
      cases h
  · rw [if_pos (by simpa using hstaff)] at h
    cases h

/-- The audit invariant: the last timeline entry carries the order's
current status. -/
def lastStatusMatches (o : Order) : Prop :=
  o.timeline.getLast?.map TimelineEntry.status = some o.status

/-- Through any sequence of status-update requests, the tracked order's
timeline grows by exactly the number of successful updates that target it,
and the last-entry/status invariant is preserved. -/
theorem runOrderUpdates_tracked (i : Nat) :
    ∀ (us : List OrderUpdateReq) (st : OrdersState) (o : Order),
      List.find? (fun x => x.id == i) st.orders = some o →
      ∃ o2,
        List.find? (fun x => x.id == i) (runOrderUpdates st us).orders = some o2 ∧
        o2.timeline.length = o.timeline.length + countSuccessesFor i st us ∧
        (lastStatusMatches o → lastStatusMatches o2) := by
  intro us
  induction us with
  | nil =>
    intro st o hfind
    exact ⟨o, hfind, by simp [runOrderUpdates, countSuccessesFor], fun h => h⟩
  | cons u us ih =>
    intro st o hfind
    cases hres : update_order_status u.roles u.orderId u.newStatus u.ts st with
    | error e =>
      have happ : applyOrderUpdate st u = st := by simp [applyOrderUpdate, hres]
      obtain ⟨o2, h1, h2, h3⟩ := ih st o hfind
      refine ⟨o2, ?_, ?_, h3⟩
      · simpa [runOrderUpdates, happ] using h1
      · simpa [countSuccessesFor, hres, happ] using h2
    | ok r =>
      obtain ⟨oPrev, hfindPrev, hr⟩ := update_order_status_ok_inv _ _ _ _ _ _ hres
      obtain ⟨ro, rst⟩ := r
      rw [Prod.mk.injEq] at hr
      obtain ⟨hro, hrst⟩ := hr
      have happ : applyOrderUpdate st u = rst := by simp [applyOrderUpdate, hres]
      by_cases hij : u.orderId = i
      · subst hij
        have hoo : oPrev = o := Option.some_injective _ (hfindPrev.symm.trans hfind)
        subst hoo
        have hfind2 : List.find? (fun x => x.id == u.orderId) rst.orders =
            some (orderStatusUpd u.newStatus u.ts oPrev) := by
          simp only [hrst]
          rw [find?_updateFirst_self (fun x => x.id == u.orderId)
              (orderStatusUpd u.newStatus u.ts) (fun x => rfl), hfindPrev]
          rfl
        obtain ⟨o2, h1, h2, h3⟩ := ih rst (orderStatusUpd u.newStatus u.ts oPrev) hfind2
        refine ⟨o2, ?_, ?_, fun _ => h3 ?_⟩
        · simpa [runOrderUpdates, happ] using h1
        · have hcount : countSuccessesFor u.orderId st (u :: us) =
              1 + countSuccessesFor u.orderId rst us := by
            simp [countSuccessesFor, hres, happ]
          rw [hcount]
          have hlen : (orderStatusUpd u.newStatus u.ts oPrev).timeline.length =
              oPrev.timeline.length + 1 := by
            simp [orderStatusUpd]
          omega
        · simp [lastStatusMatches, orderStatusUpd]
      · have hq : ∀ x : Order, (x.id == u.orderId) = true → (x.id == i) = false := by
          intro x hx
          simp only [beq_iff_eq] at hx
          simp only [beq_eq_false_iff_ne, ne_eq]
          omega
        have hfind2 : List.find? (fun x => x.id == i) rst.orders = some o := by
          simp only [hrst]
          rw [find?_updateFirst_other (fun x => x.id == i)
              (fun x => x.id == u.orderId) (orderStatusUpd u.newStatus u.ts)
              hq (fun x => rfl)]
          exact hfind
        obtain ⟨o2, h1, h2, h3⟩ := ih rst o hfind2
        refine ⟨o2, ?_, ?_, h3⟩
        · simpa [runOrderUpdates, happ] using h1
        · have hcount : countSuccessesFor i st (u :: us) =
              countSuccessesFor i rst us := by
            simp [countSuccessesFor, hres, happ, hij]
          rw [hcount]
          exact h2

/-- C7: An order created by `create_order` starts with a one-entry
timeline; after any sequence of status-update requests its timeline length
is 1 plus the number of successful updates that targeted it and the last
timeline entry's status equals the order's current status; moreover every
successful update appends exactly one timeline entry. -/
theorem order_timeline_audit (st : OrdersState) (uid : String) (planId : Nat)
    (address pincode slot : String) (ts : Int) (o : Order) (st1 : OrdersState)
    (hfresh : ∀ x ∈ st.orders, x.id ≠ st.nextId)
    (hc : create_order st uid planId address pincode slot ts = .ok (o, st1))
    (us : List OrderUpdateReq) :
    o.timeline.length = 1 ∧
    (∃ o2,
      List.find? (fun x => x.id == o.id) (runOrderUpdates st1 us).orders = some o2 ∧
      o2.timeline.length = 1 + countSuccessesFor o.id st1 us ∧
      o2.timeline.getLast?.map TimelineEntry.status = some o2.status) ∧
    (∀ (roles : List String) (oid : Nat) (ns : String) (ts2 : Int)
        (s : OrdersState) (r : Order × OrdersState),
      update_order_status roles oid ns ts2 s = .ok r →
      ∃ oPrev, List.find? (fun x => x.id == oid) s.orders = some oPrev ∧
        r.1.timeline = oPrev.timeline ++ [⟨ns, ts2, "staff"⟩]) := by
  have happend : ∀ (roles : List String) (oid : Nat) (ns : String) (ts2 : Int)
      (s : OrdersState) (r : Order × OrdersState),
      update_order_status roles oid ns ts2 s = .ok r →
      ∃ oPrev, List.find? (fun x => x.id == oid) s.orders = some oPrev ∧
        r.1.timeline = oPrev.timeline ++ [⟨ns, ts2, "staff"⟩] := by
    intro roles oid ns ts2 s r hres
    obtain ⟨oPrev, h1, h2⟩ := update_order_status_ok_inv _ _ _ _ _ _ hres
    refine ⟨oPrev, h1, ?_⟩
    rw [h2]
    simp [orderStatusUpd]
  cases hp : st.plans.find? (fun p => p.id == planId && p.status == "ACTIVE") with
  | none => rw [create_order, hp] at hc; cases hc
  | some plan =>
    simp only [create_order, hp] at hc
    rw [Except.ok.injEq, Prod.mk.injEq] at hc
    obtain ⟨ho, hst1⟩ := hc
    have hlen1 : o.timeline.length = 1 := by rw [← ho]; rfl
    have hid : o.id = st.nextId := by rw [← ho]
    have horders : st1.orders = st.orders ++ [o] := by rw [← hst1, ← ho]
    have hnone : List.find? (fun x => (x.id == o.id : Bool)) st.orders = none := by
      rw [List.find?_eq_none]
      intro x hx
      simp only [hid, Bool.not_eq_true, beq_eq_false_iff_ne, ne_eq]
      exact hfresh x hx
    have hfind : List.find? (fun x => (x.id == o.id : Bool)) st1.orders = some o := by
      rw [horders, find?_append_left_none _ _ _ hnone]
      simp
    obtain ⟨o2, hf2, hl2, hinv⟩ := runOrderUpdates_tracked o.id us st1 o hfind
    refine ⟨hlen1, ⟨o2, hf2, ?_, ?_⟩, happend⟩
    · rw [hl2, hlen1]
    · exact hinv (by rw [← ho]; simp [lastStatusMatches])

/-- Witness for C7: a freshly created order followed by two successful
status updates. -/
theorem order_timeline_audit_witness :
    (∀ x ∈ ordersStC4.orders, x.id ≠ ordersStC4.nextId) ∧
    orderC8.timeline.length = 1 ∧
    ∃ o2,
      List.find? (fun x => x.id == orderC8.id)
        (runOrderUpdates stC8
          [⟨["agent"], 200, "in_progress", 6⟩,
            ⟨["agent"], 200, "completed", 7⟩]).orders = some o2 ∧
      o2.timeline.length = 1 + countSuccessesFor orderC8.id stC8
          [⟨["agent"], 200, "in_progress", 6⟩, ⟨["agent"], 200, "completed", 7⟩] ∧
      o2.timeline.getLast?.map TimelineEntry.status = some o2.status := by
  have h := order_timeline_audit ordersStC4 "u" 100 "addr" "560001" "slot" 5
    orderC8 stC8 (by intro x hx; simp [ordersStC4] at hx) rfl
    [⟨["agent"], 200, "in_progress", 6⟩, ⟨["agent"], 200, "completed", 7⟩]
  exact ⟨by intro x hx; simp [ordersStC4] at hx, h.1, h.2.1⟩

/-- Folding `keepLater` from a seed yields an element with maximal
`last_message_at` among the seed and the list. -/
theorem keepLater_foldl (l : List Conversation) :
    ∀ b : Conversation,
      ∃ r, l.foldl keepLater (some b) = some r ∧
        (r = b ∨ r ∈ l) ∧ b.last_message_at ≤ r.last_message_at ∧
        ∀ x ∈ l, x.last_message_at ≤ r.last_message_at := by
  induction l with
  | nil => intro b; exact ⟨b, rfl, Or.inl rfl, le_refl _, by simp⟩
  | cons c cs ih =>
    intro b
    by_cases h : b.last_message_at < c.last_message_at
    · obtain ⟨r, hr, hmem, hle, hall⟩ := ih c
      refine ⟨r, ?_, ?_, ?_, ?_⟩
      · simpa [keepLater, h] using hr
      · rcases hmem with rfl | hm
        · exact Or.inr (List.mem_cons_self _ _)
        · exact Or.inr (List.mem_cons_of_mem _ hm)
      · exact le_trans (le_of_lt h) hle
      · intro x hx
        rcases List.mem_cons.mp hx with rfl | hx'
        · exact hle
        · exact hall x hx'
    · obtain ⟨r, hr, hmem, hle, hall⟩ := ih b
      refine ⟨r, ?_, ?_, hle, ?_⟩
      · simpa [keepLater, h] using hr
      · rcases hmem with rfl | hm
        · exact Or.inl rfl
        · exact Or.inr (List.mem_cons_of_mem _ hm)
      · intro x hx
        rcases List.mem_cons.mp hx with rfl | hx'
        · exact le_trans (le_of_not_lt h) hle
        · exact hall x hx'

/-- The resolved active conversation belongs to the user and is the most
recently active one. -/
theorem activeConversation_spec (convs : List Conversation) (uid : String) :
    ∀ c, activeConversation convs uid = some c →
      c ∈ convs ∧ c.user_id = uid ∧
      ∀ c2 ∈ convs, c2.user_id = uid →
        c2.last_message_at ≤ c.last_message_at := by
  intro c hc
  cases hf : convs.filter (fun x => x.user_id == uid) with
  | nil =>
    rw [activeConversation, hf] at hc
    cases hc
  | cons m ms =>
    rw [activeConversation, hf] at hc
    obtain ⟨r, hr, hmem, hle, hall⟩ := keepLater_foldl ms m
    rw [List.foldl_cons] at hc
    have : r = c := Option.some_injective _ ((hr.symm.trans hc))
    subst this
    have hrfilter : r ∈ convs.filter (fun x => x.user_id == uid) := by
      rw [hf]
      rcases hmem with rfl | hm
      · exact List.mem_cons_self _ _
      · exact List.mem_cons_of_mem _ hm
    have hprops := List.mem_filter.mp hrfilter
    refine ⟨hprops.1, by simpa using hprops.2, ?_⟩
    intro c2 hc2 hc2uid
    have hc2filter : c2 ∈ convs.filter (fun x => x.user_id == uid) :=
      List.mem_filter.mpr ⟨hc2, by simpa using hc2uid⟩
    rw [hf] at hc2filter
    rcases List.mem_cons.mp hc2filter with rfl | hx'
    · exact hle
    · exact hall c2 hx'

/-- Inserting below every element of a descending list lands at the end. -/
theorem insertDescById_of_lt (m : Message) :
    ∀ l : List Message, (∀ y ∈ l, m.id < y.id) →
      insertDescById m l = l ++ [m] := by
  intro l
  induction l with
  | nil => intro _; rfl
  | cons x xs ih =>
    intro h
    have hx : m.id < x.id := h x (List.mem_cons_self _ _)
    rw [insertDescById, if_neg (by omega),
      ih (fun y hy => h y (List.mem_cons_of_mem _ hy))]
    rfl

/-- On an id-ascending list, descending sort is reversal. -/
theorem sortDescById_of_sorted :
    ∀ l : List Message, List.Pairwise (fun a b => a.id < b.id) l →
      sortDescById l = l.reverse := by
  intro l
  induction l with
  | nil => intro _; rfl
  | cons x xs ih =>
    intro h
    rw [sortDescById, ih (List.Pairwise.of_cons h),
      insertDescById_of_lt x xs.reverse
        (fun y hy => (List.pairwise_cons.mp h).1 y (List.mem_reverse.mp hy)),
      List.reverse_cons]

/-- C3: For any limit in 1..100, `chat_history` returns the empty page
with the empty conversation id when the user has no conversation;
otherwise it pages the most recently active conversation: the `limit`
most recent messages with ids strictly below the cursor when one is
given, in chronological order, with `next_cursor` equal to the oldest id
of the page iff the page is full and null otherwise. -/
theorem chat_history_pagination (st : ChatState) (uid : String) (limit : Nat)
    (cursor : Option Nat)
    (hsorted : List.Pairwise (fun a b => a.id < b.id) st.messages)
    (_hlimit : 1 ≤ limit ∧ limit ≤ 100) :
    (activeConversation st.conversations uid = none →
      chat_history st uid limit cursor = ⟨none, [], none⟩) ∧
    (∀ conv, activeConversation st.conversations uid = some conv →
      (conv ∈ st.conversations ∧ conv.user_id = uid ∧
        ∀ c2 ∈ st.conversations, c2.user_id = uid →
          c2.last_message_at ≤ conv.last_message_at) ∧
      (chat_history st uid limit cursor).conversation_id = some conv.id ∧
      (chat_history st uid limit cursor).messages =
        ((st.messages.filter (historyFilter conv.id cursor)).reverse.take
          limit).reverse ∧
      List.Pairwise (fun a b => a.id < b.id)
        (chat_history st uid limit cursor).messages ∧
      (chat_history st uid limit cursor).next_cursor =
        (if (chat_history st uid limit cursor).messages.length = limit
          then ((chat_history st uid limit cursor).messages.head?).map Message.id
          else none)) := by
  constructor
  · intro hnone
    simp [chat_history, hnone]
  · intro conv hconv
    have hpf : List.Pairwise (fun a b => a.id < b.id)
        (st.messages.filter (historyFilter conv.id cursor)) :=
      List.Pairwise.filter _ hsorted
    have hsort : sortDescById (st.messages.filter (historyFilter conv.id cursor)) =
        (st.messages.filter (historyFilter conv.id cursor)).reverse :=
      sortDescById_of_sorted _ hpf
    have hmsgs : (chat_history st uid limit cursor).messages =
        ((st.messages.filter (historyFilter conv.id cursor)).reverse.take
          limit).reverse := by
      simp [chat_history, hconv, hsort]
    have hpage : List.Pairwise (fun a b => a.id < b.id)
        (chat_history st uid limit cursor).messages := by
      rw [hmsgs]
      have h1 : List.Sublist
          ((st.messages.filter (historyFilter conv.id cursor)).reverse.take limit)
          ((st.messages.filter (historyFilter conv.id cursor)).reverse) :=
        List.take_sublist _ _
      have h2 := h1.reverse
      rw [List.reverse_reverse] at h2
      exact hpf.sublist h2
    refine ⟨activeConversation_spec st.conversations uid conv hconv, ?_, hmsgs,
      hpage, ?_⟩
    · simp [chat_history, hconv]
    · simp only [chat_history, hconv, hsort]
      cases hdocs : ((st.messages.filter (historyFilter conv.id cursor)).reverse.take
          limit).reverse with
      | nil =>
        simp [hdocs]
      | cons d tail =>
        by_cases hl : (d :: tail).length = limit
        · simp [hdocs, hl]
        · simp [hdocs, hl]

/-- Chat store fixture for the C3 witness: one conversation with five
messages. -/
def chatStH : ChatState :=
  ⟨[⟨0, "u", 0, 10⟩],
    [⟨1, 0, "user", some "m1", none, 1⟩, ⟨2, 0, "ai", some "m2", none, 2⟩,
      ⟨3, 0, "user", some "m3", none, 3⟩, ⟨4, 0, "ai", some "m4", none, 4⟩,
      ⟨5, 0, "user", some "m5", none, 5⟩], 6⟩

/-- Witness for C3: paging the five-message conversation with limit 2. -/
theorem chat_history_pagination_witness :
    List.Pairwise (fun a b : Message => a.id < b.id) chatStH.messages ∧
    (1 ≤ 2 ∧ 2 ≤ 100) ∧
    (chat_history chatStH "u" 2 none).conversation_id = some 0 ∧
    (chat_history chatStH "u" 2 none).messages =
      ((chatStH.messages.filter (historyFilter 0 none)).reverse.take 2).reverse ∧
    (chat_history chatStH "u" 2 none).next_cursor =
      (if (chat_history chatStH "u" 2 none).messages.length = 2
        then ((chat_history chatStH "u" 2 none).messages.head?).map Message.id
        else none) := by
  have h := chat_history_pagination chatStH "u" 2 none (by decide) (by decide)
  have h2 := h.2 ⟨0, "u", 0, 10⟩ rfl
  exact ⟨by decide, by decide, h2.2.1, h2.2.2.1, h2.2.2.2.2⟩
